import Mathlib

namespace Tacanno

/-- Round-half-to-even on rationals, the semantics of Python's builtin
`round` (modelled from the Python runtime, an external dependency of the
code). -/
def roundHalfEven (q : ℚ) : ℤ :=
  let n := ⌊q⌋
  let f := q - n
  if f < 1/2 then n else if 1/2 < f then n + 1 else if n % 2 = 0 then n else n + 1

/-- Python `round(x, 2)`: round to two decimal places, half to even. -/
def round2 (q : ℚ) : ℚ := (roundHalfEven (q * 100) : ℚ) / 100

/-- Python truthiness of `x or 0` applied to an optional numeric `amount`:
`None` and `0` are falsy, so `float(exp.get("amount") or 0)` yields `0.0`
for an absent, null or zero amount and the amount itself otherwise
(`db.py`, `save_expense`). -/
def pyOrZero : Option ℚ → ℚ
  | none => 0
  | some x => if x = 0 then 0 else x

/-- Python truthiness of `s or d` for an optional string: `None` and the
empty string are falsy and replaced by the default `d`. -/
def pyOrStr (d : String) : Option String → String
  | none => d
  | some s => if s = "" then d else s

/-- Python `COALESCE`-style merge used by `set_sync_state`: keep the new
value when non-null, otherwise the existing one. -/
def coalesce (new old : Option String) : Option String :=
  match new with
  | some x => some x
  | none => old

/-- Lexicographic comparison of character lists by code point, the order
SQLite's `memcmp` induces on ASCII `TEXT` values. -/
def charsLe : List Char → List Char → Bool
  | [], _ => true
  | _ :: _, [] => false
  | a :: as, b :: bs =>
    if a.toNat < b.toNat then true
    else if b.toNat < a.toNat then false
    else charsLe as bs

/-- SQLite `TEXT` comparison `s <= t` (byte-wise; on the ASCII ISO dates
used here this is exactly code-point order). -/
def strLe (s t : String) : Bool := charsLe s.data t.data

/-- One row of the `expenses` table (`db.py`, `init_db`): every column is
nullable except the autoincrement `id`; `amount REAL` is stored by
`save_expense` as `float(exp.get("amount") or 0)`, hence never null. -/
structure ExpenseRow where
  id : ℕ
  date : Option String
  vendor : Option String
  amount : ℚ
  currency : Option String
  category : Option String
  source : Option String
  notes : Option String
  email_id : Option String

/-- The dict handed to `save_expense`: any key may be absent/None. -/
structure ExpenseInput where
  date : Option String
  vendor : Option String
  amount : Option ℚ
  currency : Option String
  category : Option String
  source : Option String
  notes : Option String
  email_id : Option String

/-- One row of the `budgets` table; `category TEXT UNIQUE`. -/
structure BudgetRow where
  category : String
  amount : ℚ
  period : String

/-- The SQLite database of `db.py`: the three tables created by `init_db`.
`syncRow` is the single `sync_state` row with `id = 1` (absent until the
first `set_sync_state`); `nextId` is the `expenses` autoincrement counter. -/
structure Store where
  expenses : List ExpenseRow
  budgets : List BudgetRow
  syncRow : Option (Option String × Option String)
  nextId : ℕ

/-- The store produced by `init_db` on a fresh database: empty tables. -/
def emptyStore : Store := ⟨[], [], none, 1⟩

/-- Model of `save_expense(exp)` (`db.py`): inserts one row.  The schema's
`email_id TEXT UNIQUE` constraint makes the insert raise an
`IntegrityError` when a non-null `email_id` is already present (SQLite
`UNIQUE` ignores nulls); the error is modelled as `Except.error`. -/
def save_expense (exp : ExpenseInput) (s : Store) : Except String Store :=
  let conflict := match exp.email_id with
    | some eid => s.expenses.any (fun r => r.email_id = some eid)
    | none => false
  if conflict then
    Except.error "UNIQUE constraint failed: expenses.email_id"
  else
    Except.ok { s with
      expenses := s.expenses ++
        [⟨s.nextId, exp.date, exp.vendor, pyOrZero exp.amount, exp.currency,
          exp.category, exp.source, exp.notes, exp.email_id⟩],
      nextId := s.nextId + 1 }

/-- Model of `set_budget(category, amount, period)`: `INSERT ... ON CONFLICT(category)
DO UPDATE`, i.e. replace-or-insert keyed by category. -/
def set_budget (category : String) (amount : ℚ) (period : String) (s : Store) : Store :=
  if s.budgets.any (fun b => b.category = category) then
    { s with budgets := s.budgets.map (fun b =>
        if b.category = category then ⟨b.category, amount, period⟩ else b) }
  else
    { s with budgets := s.budgets ++ [⟨category, amount, period⟩] }

/-- Model of `get_budgets()`: all budget rows. -/
def get_budgets (s : Store) : List BudgetRow := s.budgets

/-- The condition `WHERE date BETWEEN ? AND ?` on the nullable `date` column: SQL
comparisons with `NULL` are not true, so null dates never match. -/
def inRangeB (start_date end_date : String) (x : ExpenseRow) : Bool :=
  match x.date with
  | none => false
  | some d => strLe start_date d && strLe d end_date

/-- The `ORDER BY date ASC` comparison on the nullable date column: SQLite
sorts `NULL`s first in ascending order. -/
def dateLe (a b : Option String) : Bool :=
  match a, b with
  | none, _ => true
  | some _, none => false
  | some a, some b => strLe a b

/-- Insert `e` into `l`, before the first element `x` with `le e x`.
Used with a total `le` this is one step of a stable insertion sort. -/
def insBy (le : α → α → Bool) (e : α) : List α → List α
  | [] => [e]
  | x :: xs => if le e x then e :: x :: xs else x :: insBy le e xs

/-- Stable insertion sort (models SQL `ORDER BY`, ties kept in row order). -/
def sortBy (le : α → α → Bool) : List α → List α
  | [] => []
  | x :: xs => insBy le x (sortBy le xs)

/-- Model of `get_expenses_between(start, end)`: rows with `date BETWEEN`,
`ORDER BY date ASC` (stable in insertion order on equal dates). -/
def get_expenses_between (start_date end_date : String) (s : Store) : List ExpenseRow :=
  sortBy (fun a b => dateLe a.date b.date) (s.expenses.filter (inRangeB start_date end_date))

/-- One row of the result of `aggregate_by_field`: the dict
`{"field": r[0] or "Uncategorized", "total": ..., "count": ...}`. -/
structure AggRow where
  field : String
  total : ℚ
  count : ℕ

/-- The display name `r[0] or "Uncategorized"`: a null (or empty, Python falsiness) group
key is displayed as `"Uncategorized"`. -/
def display (o : Option String) : String :=
  match o with
  | none => "Uncategorized"
  | some c => if c = "" then "Uncategorized" else c

/-- The grouping column: `field` is forced to `"category"` unless it is
exactly `"vendor"` (the code resets anything outside
`("category", "vendor")` to `"category"`). -/
def sel (field : String) (x : ExpenseRow) : Option String :=
  if field = "vendor" then x.vendor else x.category

/-- Distinct values in order of first appearance (SQL `GROUP BY` keys). -/
def firstDedup [DecidableEq α] : List α → List α
  | [] => []
  | k :: ks => k :: (firstDedup ks).filter (fun x => x ≠ k)

/-- Model of `aggregate_by_field(start, end, field)`: group the rows in the date
range by the raw column value, sum amounts and count rows per group, map
the key through `display`, and `ORDER BY total DESC`. -/
def aggregate_by_field (start_date end_date field : String) (s : Store) : List AggRow :=
  let rows := s.expenses.filter (inRangeB start_date end_date)
  let keys := firstDedup (rows.map (sel field))
  let groups := keys.map (fun k =>
    let g := rows.filter (fun x => sel field x = k)
    AggRow.mk (display k) ((g.map (·.amount)).sum) g.length)
  sortBy (fun a b => decide (b.total ≤ a.total)) groups

/-- Model of `total_spent(start, end)`: `SELECT SUM(amount)` over the range, with
`float(row[0] or 0)` turning the `NULL` sum of an empty range into `0`. -/
def total_spent (start_date end_date : String) (s : Store) : ℚ :=
  ((s.expenses.filter (inRangeB start_date end_date)).map (·.amount)).sum

/-- Model of `get_sync_state()`: the `id = 1` row, or a dict of nulls if absent. -/
def get_sync_state (s : Store) : Option String × Option String :=
  match s.syncRow with
  | some r => r
  | none => (none, none)

/-- Model of `set_sync_state(timestamp, history_id)`: upsert of the single row,
`COALESCE(excluded.col, col)` keeping the old value wherever the new
argument is null. -/
def set_sync_state (timestamp history_id : Option String) (s : Store) : Store :=
  match s.syncRow with
  | none => { s with syncRow := some (timestamp, history_id) }
  | some r => { s with syncRow := some (coalesce timestamp r.1, coalesce history_id r.2) }

/-- Model of `email_already_processed(email_id)`: any expense row with that id. -/
def email_already_processed (email_id : String) (s : Store) : Bool :=
  s.expenses.any (fun r => r.email_id = some email_id)

/-- A Python `datetime.date` value (proleptic Gregorian calendar). -/
structure PyDate where
  year : ℕ
  month : ℕ
  day : ℕ

/-- Gregorian leap-year rule (modelled from Python's `datetime`, the
calendar library the code relies on). -/
def isLeap (y : ℕ) : Bool := y % 4 = 0 && (y % 100 ≠ 0 || y % 400 = 0)

/-- Number of days of month `m` of year `y` in the Gregorian calendar
(modelled from Python's `datetime`). -/
def daysInMonth (y m : ℕ) : ℕ :=
  if m = 2 then (if isLeap y then 29 else 28)
  else if m = 4 ∨ m = 6 ∨ m = 9 ∨ m = 11 then 30
  else 31

/-- Python `d - timedelta(days=1)` on a valid `datetime.date` (modelled from
Python's `datetime` calendar arithmetic). -/
def predDay (d : PyDate) : PyDate :=
  if d.day > 1 then ⟨d.year, d.month, d.day - 1⟩
  else if d.month > 1 then ⟨d.year, d.month - 1, daysInMonth d.year (d.month - 1)⟩
  else ⟨d.year - 1, 12, 31⟩

/-- The date computation inside `iso_first_last_of_month` (`reports.py`):
`date(year, month, 1)`, and for the last day `date(year, 12, 31)` when
`month == 12`, else `date(year, month + 1, 1) - timedelta(days=1)`. -/
def first_last_of_month (year month : ℕ) : PyDate × PyDate :=
  (⟨year, month, 1⟩,
   if month = 12 then ⟨year, 12, 31⟩ else predDay ⟨year, month + 1, 1⟩)

/-- Two decimal digits with leading zero (`%02d`, valid for `n < 100`). -/
def twoDigits (n : ℕ) : String :=
  String.mk [Char.ofNat (48 + n / 10 % 10), Char.ofNat (48 + n % 10)]

/-- Four decimal digits with leading zeros (`%04d`, the year field of
`date.isoformat()`, valid for the `datetime` year range `1..9999`). -/
def fourDigits (n : ℕ) : String :=
  String.mk [Char.ofNat (48 + n / 1000 % 10), Char.ofNat (48 + n / 100 % 10),
             Char.ofNat (48 + n / 10 % 10), Char.ofNat (48 + n % 10)]

/-- Python `date.isoformat()`: `YYYY-MM-DD`. -/
def isoformat (d : PyDate) : String :=
  fourDigits d.year ++ "-" ++ twoDigits d.month ++ "-" ++ twoDigits d.day

/-- Model of `iso_first_last_of_month(year, month)` (`reports.py`): the ISO strings
of the first and last day of the month. -/
def iso_first_last_of_month (year month : ℕ) : String × String :=
  let p := first_last_of_month year month
  (isoformat p.1, isoformat p.2)

/-- ASCII lower-casing, the effect of Python's `str.lower()` on the ASCII
category strings involved. -/
def lowerStr (s : String) : String := String.mk (s.data.map Char.toLower)

/-- Entry of the `by_category` list in `get_monthly_summary`'s response. -/
structure CatEntry where
  category : String
  amount : ℚ
  count : ℕ

/-- Entry of the `top_vendors` list in `get_monthly_summary`'s response. -/
structure VendorEntry where
  vendor : String
  amount : ℚ

/-- The structured response of `get_monthly_summary` (`expense_agent.py`);
the code serialises it to JSON, which is presentation only. -/
structure MonthlySummary where
  period : String
  total_spent : ℚ
  by_category : List CatEntry
  top_vendors : List VendorEntry

/-- Model of `get_monthly_summary(year, month)` (`expense_agent.py`).  The
`datetime.now` defaulting of the two arguments happens before this logic
and is modelled by passing the effective year and month. -/
def get_monthly_summary (year month : ℕ) (s : Store) : MonthlySummary :=
  let b := iso_first_last_of_month year month
  let total := total_spent b.1 b.2 s
  let by_category := aggregate_by_field b.1 b.2 "category" s
  let by_vendor := aggregate_by_field b.1 b.2 "vendor" s
  ⟨toString year ++ "-" ++ twoDigits month,
   round2 total,
   (by_category.take 10).map (fun c => ⟨c.field, round2 c.total, c.count⟩),
   (by_vendor.take 5).map (fun v => ⟨v.field, round2 v.total⟩)⟩

/-- One status dict in `get_budget_status`'s response list. -/
structure StatusEntry where
  category : String
  budget : Option ℚ
  spent : ℚ
  remaining : Option ℚ
  over_budget : Bool

/-- Lookup in a Python dict built from an association list by
comprehension: on duplicate keys the later binding wins. -/
def lookupLast (k : String) (l : List (String × ℚ)) : Option ℚ :=
  (l.reverse.find? (fun p => p.1 = k)).map (·.2)

/-- Model of `get_budget_status()` (`expense_agent.py`) for the current month
(`datetime.now` modelled by the explicit `nowYear`/`nowMonth`).  The
iteration over `budget_map.items()` is modelled as iteration over the
budget rows, which agrees with the dict because `budgets.category` is
`UNIQUE`. -/
def get_budget_status (nowYear nowMonth : ℕ) (s : Store) : List StatusEntry :=
  let b := iso_first_last_of_month nowYear nowMonth
  let by_category := aggregate_by_field b.1 b.2 "category" s
  let budgets := get_budgets s
  let spent_map : List (String × ℚ) := by_category.map (fun c => (c.field, c.total))
  let fromBudgets := budgets.map (fun bg =>
    let spent := (lookupLast bg.category spent_map).getD 0
    let remaining := bg.amount - spent
    StatusEntry.mk bg.category (some bg.amount) (round2 spent)
      (some (round2 remaining)) (decide (remaining < 0)))
  let extra := (by_category.filter (fun c =>
      !(budgets.any (fun bg => bg.category = c.field)))).map
    (fun c => StatusEntry.mk c.field none (round2 c.total) none false)
  fromBudgets ++ extra

/-- One entry of `get_recent_expenses`'s response. -/
structure RecentEntry where
  date : Option String
  vendor : String
  amount : ℚ
  category : String
  currency : String

/-- Model of `get_recent_expenses(limit)` (`expense_agent.py`) for the current
month.  `expenses[-limit:]` keeps the whole list when `limit == 0`
(Python `-0` slicing) and otherwise the last `limit` elements. -/
def get_recent_expenses (nowYear nowMonth : ℕ) (limit : ℕ) (s : Store) : List RecentEntry :=
  let b := iso_first_last_of_month nowYear nowMonth
  let expenses := get_expenses_between b.1 b.2 s
  let recent := if expenses.length > limit then
      (if limit = 0 then expenses else expenses.drop (expenses.length - limit))
    else expenses
  recent.reverse.map (fun x =>
    ⟨x.date, pyOrStr "Unknown" x.vendor, x.amount,
     pyOrStr "Uncategorized" x.category, pyOrStr "" x.currency⟩)

/-- One transaction dict in `get_category_spending`'s response. -/
structure TransEntry where
  date : Option String
  vendor : Option String
  amount : ℚ

/-- The structured response of `get_category_spending`. -/
structure CategoryResult where
  category : String
  period : String
  total : ℚ
  transaction_count : ℕ
  transactions : List TransEntry

/-- Model of `get_category_spending(category, year, month)` (`expense_agent.py`):
case-insensitive filter on the month's rows, rounded total, count, and
the dicts of `filtered[-10:]` (the last ten of the date-ascending list). -/
def get_category_spending (category : String) (year month : ℕ) (s : Store) : CategoryResult :=
  let b := iso_first_last_of_month year month
  let expenses := get_expenses_between b.1 b.2 s
  let category_lower := lowerStr category
  let filtered := expenses.filter (fun e => lowerStr (pyOrStr "" e.category) = category_lower)
  let total := (filtered.map (·.amount)).sum
  ⟨category, toString year ++ "-" ++ twoDigits month, round2 total, filtered.length,
   (filtered.drop (filtered.length - 10)).map (fun e => ⟨e.date, e.vendor, e.amount⟩)⟩

/-- An email as returned by `fetch_new_emails` (`gmail_agent.py`); the
fields the processing loop reads are the Gmail id and the sender. -/
structure EmailMsg where
  id : String
  sender : String

/-- The `expense_data` dict produced by the classifier. -/
structure GExpenseData where
  date : Option String
  vendor : Option String
  amount : Option ℚ
  currency : Option String
  category : Option String
  notes : Option String

/-- The classifier's verdict (`classify_email` is an external AI call;
its structured result is an input of the model). -/
structure Classification where
  is_expense : Bool
  confidence : ℚ
  expense_data : Option GExpenseData

/-- The per-sweep stats dict of `pull_and_process_emails`. -/
structure SweepStats where
  emails_checked : ℕ
  expenses_found : ℕ
  expenses_saved : ℕ

/-- The notes rewrite `f"{expense_data.get('notes', '')} [From: {sender}]".strip()`
(a null `notes` value modelled like an absent key). -/
def gmailNotes (n : Option String) (sender : String) : Option String :=
  some (((n.getD "") ++ " [From: " ++ sender ++ "]").trim)

/-- Python truthiness of `expense_data.get('amount')`: present and
non-zero. -/
def truthyAmount : Option ℚ → Bool
  | none => false
  | some a => decide (a ≠ 0)

/-- The dict passed to `save_expense` by the sweep: the classifier's
`expense_data` with `source`, `email_id` and the notes suffix added. -/
def gmailInput (ed : GExpenseData) (email : EmailMsg) : ExpenseInput :=
  ⟨ed.date, ed.vendor, ed.amount, ed.currency, ed.category,
   some "gmail", gmailNotes ed.notes email.sender, some email.id⟩

/-- The body of the loop in `pull_and_process_emails`: classify, count a
find when `is_expense` and `confidence >= 0.7`, and attempt the save when
an amount is also (truthily) present; `except Exception: pass` swallows
any save failure. -/
def processEmail (classify : EmailMsg → Classification)
    (acc : Store × SweepStats) (email : EmailMsg) : Store × SweepStats :=
  let cls := classify email
  if cls.is_expense && decide ((7 : ℚ)/10 ≤ cls.confidence) then
    let stats := { acc.2 with expenses_found := acc.2.expenses_found + 1 }
    match cls.expense_data with
    | some ed =>
      if truthyAmount ed.amount then
        match save_expense (gmailInput ed email) acc.1 with
        | Except.ok s' => (s', { stats with expenses_saved := stats.expenses_saved + 1 })
        | Except.error _ => (acc.1, stats)
      else (acc.1, stats)
    | none => (acc.1, stats)
  else (acc.1, acc.2)

/-- Model of `pull_and_process_emails` (`gmail_agent.py`) after the Gmail fetch:
`emails` is the batch returned by `fetch_new_emails` (already filtered by
`email_already_processed`), `classify` the external classifier, `now` the
ISO timestamp `datetime.now(timezone.utc).isoformat()`.  The loop updates
the stats dict initialised with `emails_checked = len(emails)`, and the
sync timestamp is set unconditionally after the loop. -/
def pull_and_process_emails (classify : EmailMsg → Classification)
    (now : String) (emails : List EmailMsg) (s : Store) : Store × SweepStats :=
  let r := emails.foldl (processEmail classify) (s, ⟨emails.length, 0, 0⟩)
  (set_sync_state (some now) none r.1, r.2)

/-! ### Claim-side definitions

Semantic quantities the claims speak about, expressed directly over the
store (not over the query pipeline), used to state the theorems. -/

/-- The spending of the stored category value `some c` within a date
range: the sum of the amounts of the matching rows. -/
def spendIn (start_date end_date : String) (c : String) (s : Store) : ℚ :=
  ((s.expenses.filter fun x =>
    decide (x.category = some c) && inRangeB start_date end_date x).map (·.amount)).sum

/-- Date-range membership for the calendar month `(y, m)`, via the
month bounds the code itself computes. -/
def monthRangeB (y m : ℕ) (x : ExpenseRow) : Bool :=
  inRangeB (iso_first_last_of_month y m).1 (iso_first_last_of_month y m).2 x

/-- The case-insensitive category match of `get_category_spending`. -/
def catMatchB (category : String) (x : ExpenseRow) : Bool :=
  decide (lowerStr (pyOrStr "" x.category) = lowerStr category)

/-- The sweep counts an email as found: classified as an expense with
confidence at least `0.7`. -/
def confidentB (c : Classification) : Bool :=
  c.is_expense && decide ((7 : ℚ)/10 ≤ c.confidence)

/-- The sweep attempts to save an email: found, and the extracted data
carries a (truthy) amount. -/
def savableB (c : Classification) : Bool :=
  confidentB c && (match c.expense_data with
    | some ed => truthyAmount ed.amount
    | none => false)

/-- The month's expenses matching a category case-insensitively, in the
date-ascending order the store query produces. -/
def catMonthRows (category : String) (y m : ℕ) (s : Store) : List ExpenseRow :=
  sortBy (fun a b => dateLe a.date b.date)
    (s.expenses.filter fun x => catMatchB category x && monthRangeB y m x)

/-! ### Concrete fixtures used by witnesses and counterexamples -/

/-- A November 2025 `Food` expense of 100. -/
def foodRow1 : ExpenseRow := ⟨1, some "2025-11-03", none, 100, none, some "Food", none, none, none⟩

/-- A November 2025 `Food` expense of 250. -/
def foodRow2 : ExpenseRow := ⟨2, some "2025-11-10", none, 250, none, some "Food", none, none, none⟩

/-- A store with the two `Food` expenses and a `Food = 300` budget. -/
def foodStore : Store := ⟨[foodRow1, foodRow2], [⟨"Food", 300, "monthly"⟩], none, 3⟩

/-- A `food` (lower case) expense of 100 on Nov 1. -/
def caseRow1 : ExpenseRow := ⟨1, some "2025-11-01", none, 100, none, some "food", none, none, none⟩

/-- A `Food` expense of 250 on Nov 2. -/
def caseRow2 : ExpenseRow := ⟨2, some "2025-11-02", none, 250, none, some "Food", none, none, none⟩

/-- A store whose two expenses differ in category case. -/
def caseStore : Store := ⟨[caseRow1, caseRow2], [], none, 3⟩

/-- A November 2025 expense whose amount `0.125` is not a 2-decimal value. -/
def eighthRow : ExpenseRow := ⟨1, some "2025-11-03", none, 1/8, none, some "Food", none, none, none⟩

/-- A store holding just `eighthRow`. -/
def eighthStore : Store := ⟨[eighthRow], [], none, 2⟩

/-- An expense input carrying only an external id. -/
def idOnlyInput : ExpenseInput := ⟨none, none, none, none, none, none, none, some "m1"⟩

/-- The store obtained by saving `idOnlyInput` into an empty store. -/
def idOnlyStore : Store := ⟨[⟨1, none, none, 0, none, none, none, none, some "m1"⟩], [], none, 2⟩

/-- A sample email, and a second one with the same Gmail id. -/
def email1 : EmailMsg := ⟨"m1", "alice@example.com"⟩

/-- A distinct second email. -/
def email2 : EmailMsg := ⟨"m2", "bob@example.com"⟩

/-- A classifier that always reports a confident expense of amount 5. -/
def classifyAmount : EmailMsg → Classification :=
  fun _ => ⟨true, 1, some ⟨some "2025-11-03", some "Shop", some 5, none, some "Food", none⟩⟩

/-- A classifier that reports a confident expense with no amount. -/
def classifyNoAmount : EmailMsg → Classification :=
  fun _ => ⟨true, 1, some ⟨some "2025-11-03", some "Shop", none, none, some "Food", none⟩⟩

/-- A store whose sync row holds a timestamp and a history id. -/
def syncStore : Store := ⟨[], [], some (some "2025-01-01T00:00:00", some "H7"), 1⟩

/-- A November 2025 expense with a NULL category, amount 50 (as the gmail
ingestion path can store when the classifier returns a null category). -/
def aliasRow1 : ExpenseRow := ⟨1, some "2025-11-05", none, 50, none, none, none, none, none⟩

/-- A November 2025 expense whose stored category is the literal string
`Uncategorized`, amount 70. -/
def aliasRow2 : ExpenseRow :=
  ⟨2, some "2025-11-06", none, 70, none, some "Uncategorized", none, none, none⟩

/-- A store where the NULL category and the literal `Uncategorized`
category alias to the same display label, with a budget
`Uncategorized = 100`. -/
def aliasStore : Store :=
  ⟨[aliasRow1, aliasRow2], [⟨"Uncategorized", 100, "monthly"⟩], none, 3⟩

/-! ### Generic facts about the embedded list and string operations -/

theorem charsLe_total : ∀ a b : List Char, charsLe a b = false → charsLe b a = true
  | _, [], _ => rfl
  | [], _ :: _, h => by simp [charsLe] at h
  | a :: as, b :: bs, h => by
    simp only [charsLe] at h ⊢
    rcases Nat.lt_trichotomy a.toNat b.toNat with hlt | heq | hgt
    · simp [hlt] at h
    · simp only [heq, Nat.lt_irrefl, if_false] at h ⊢
      exact charsLe_total as bs h
    · simp [hgt]

theorem charsLe_trans : ∀ a b c : List Char,
    charsLe a b = true → charsLe b c = true → charsLe a c = true
  | [], _, _, _, _ => rfl
  | _ :: _, [], _, h, _ => by simp [charsLe] at h
  | _ :: _, _ :: _, [], _, h => by simp [charsLe] at h
  | a :: as, b :: bs, c :: cs, hab, hbc => by
    simp only [charsLe] at hab hbc ⊢
    rcases Nat.lt_trichotomy a.toNat b.toNat with hab1 | hab1 | hab1
    · rcases Nat.lt_trichotomy b.toNat c.toNat with hbc1 | hbc1 | hbc1
      · simp [Nat.lt_trans hab1 hbc1]
      · simp [hbc1 ▸ hab1]
      · simp [Nat.lt_asymm hbc1, hbc1] at hbc
    · rcases Nat.lt_trichotomy b.toNat c.toNat with hbc1 | hbc1 | hbc1
      · simp [hab1 ▸ hbc1]
      · have hac : a.toNat = c.toNat := hab1.trans hbc1
        simp only [hab1, Nat.lt_irrefl, if_false] at hab
        simp only [hbc1, Nat.lt_irrefl, if_false] at hbc
        simp only [hac, Nat.lt_irrefl, if_false]
        exact charsLe_trans as bs cs hab hbc
      · simp [Nat.lt_asymm hbc1, hbc1] at hbc
    · simp [Nat.lt_asymm hab1, hab1] at hab

theorem strLe_total (s t : String) (h : strLe s t = false) : strLe t s = true :=
  charsLe_total _ _ h

theorem strLe_trans {s t u : String} (h1 : strLe s t = true) (h2 : strLe t u = true) :
    strLe s u = true :=
  charsLe_trans _ _ _ h1 h2

theorem dateLe_total (a b : Option String) (h : dateLe a b = false) : dateLe b a = true := by
  cases a with
  | none => simp [dateLe] at h
  | some x =>
    cases b with
    | none => simp [dateLe]
    | some y => exact strLe_total x y h

theorem dateLe_trans {a b c : Option String} (h1 : dateLe a b = true)
    (h2 : dateLe b c = true) : dateLe a c = true := by
  cases a with
  | none => rfl
  | some x =>
    cases b with
    | none => simp [dateLe] at h1
    | some y =>
      cases c with
      | none => simp [dateLe] at h2
      | some z => exact strLe_trans h1 h2

theorem insBy_perm (le : α → α → Bool) (e : α) :
    ∀ l : List α, (insBy le e l).Perm (e :: l)
  | [] => List.Perm.refl _
  | x :: xs => by
    simp only [insBy]
    by_cases h : le e x = true
    · rw [if_pos h]
    · rw [if_neg h]
      exact ((insBy_perm le e xs).cons x).trans (List.Perm.swap e x xs)

theorem sortBy_perm (le : α → α → Bool) : ∀ l : List α, (sortBy le l).Perm l
  | [] => List.Perm.refl _
  | x :: xs => (insBy_perm le x (sortBy le xs)).trans ((sortBy_perm le xs).cons x)

theorem mem_sortBy {le : α → α → Bool} {l : List α} {a : α} :
    a ∈ sortBy le l ↔ a ∈ l :=
  (sortBy_perm le l).mem_iff

theorem mem_insBy {le : α → α → Bool} {l : List α} {e a : α} :
    a ∈ insBy le e l ↔ a = e ∨ a ∈ l := by
  rw [(insBy_perm le e l).mem_iff, List.mem_cons]

theorem pairwise_insBy {le : α → α → Bool}
    (htot : ∀ a b, le a b = false → le b a = true)
    (htr : ∀ a b c, le a b = true → le b c = true → le a c = true) {e : α} :
    ∀ {l : List α}, l.Pairwise (fun a b => le a b = true) →
      (insBy le e l).Pairwise (fun a b => le a b = true) := by
  intro l
  induction l with
  | nil => intro _; simp [insBy]
  | cons x xs ih =>
    intro h
    rw [List.pairwise_cons] at h
    simp only [insBy]
    by_cases hc : le e x = true
    · rw [if_pos hc]
      refine List.Pairwise.cons ?_ (List.Pairwise.cons h.1 h.2)
      intro y hy
      rcases List.mem_cons.1 hy with rfl | hy
      · exact hc
      · exact htr _ _ _ hc (h.1 y hy)
    · rw [if_neg hc]
      refine List.Pairwise.cons ?_ (ih h.2)
      intro y hy
      rcases mem_insBy.1 hy with rfl | hy
      · exact htot _ _ (Bool.eq_false_iff.2 hc)
      · exact h.1 y hy

theorem pairwise_sortBy {le : α → α → Bool}
    (htot : ∀ a b, le a b = false → le b a = true)
    (htr : ∀ a b c, le a b = true → le b c = true → le a c = true) :
    ∀ l : List α, (sortBy le l).Pairwise (fun a b => le a b = true)
  | [] => List.Pairwise.nil
  | _ :: xs => pairwise_insBy htot htr (pairwise_sortBy htot htr xs)

theorem insBy_of_forall {le : α → α → Bool} {e : α} :
    ∀ {l : List α}, (∀ x ∈ l, le e x = true) → insBy le e l = e :: l
  | [], _ => rfl
  | x :: xs, h => by
    simp only [insBy]
    rw [if_pos (h x (List.mem_cons_self x xs))]

theorem filter_insBy {le : α → α → Bool}
    (htr : ∀ a b c, le a b = true → le b c = true → le a c = true)
    {p : α → Bool} {e : α} :
    ∀ {l : List α}, l.Pairwise (fun a b => le a b = true) →
      (insBy le e l).filter p =
        if p e then insBy le e (l.filter p) else l.filter p := by
  intro l
  induction l with
  | nil =>
    intro _
    by_cases hp : p e = true <;> simp [insBy, List.filter_cons, hp]
  | cons x xs ih =>
    intro h
    rw [List.pairwise_cons] at h
    simp only [insBy]
    by_cases hc : le e x = true
    · rw [if_pos hc]
      have hall : ∀ y ∈ (x :: xs).filter p, le e y = true := by
        intro y hy
        rcases List.mem_cons.1 (List.mem_of_mem_filter hy) with rfl | hy'
        · exact hc
        · exact htr _ _ _ hc (h.1 y hy')
      rw [insBy_of_forall hall]
      by_cases hp : p e = true <;> simp [List.filter_cons, hp]
    · rw [if_neg hc]
      by_cases hx : p x = true
      · by_cases hp : p e = true
        · simp [List.filter_cons, hx, hp, ih h.2, insBy, hc]
        · simp [List.filter_cons, hx, hp, ih h.2]
      · simp [List.filter_cons, hx, ih h.2]

theorem filter_sortBy {le : α → α → Bool}
    (htot : ∀ a b, le a b = false → le b a = true)
    (htr : ∀ a b c, le a b = true → le b c = true → le a c = true)
    (p : α → Bool) :
    ∀ l : List α, (sortBy le l).filter p = sortBy le (l.filter p)
  | [] => rfl
  | x :: xs => by
    simp only [sortBy]
    rw [filter_insBy htr (pairwise_sortBy htot htr xs)]
    by_cases hx : p x = true
    · simp [List.filter_cons, hx, sortBy, filter_sortBy htot htr p xs]
    · simp [List.filter_cons, hx, filter_sortBy htot htr p xs]

theorem mem_firstDedup [DecidableEq α] {a : α} :
    ∀ {l : List α}, a ∈ firstDedup l ↔ a ∈ l
  | [] => Iff.rfl
  | k :: ks => by
    simp only [firstDedup, List.mem_cons, List.mem_filter]
    by_cases hak : a = k
    · simp [hak]
    · simp only [hak, false_or, decide_eq_true_eq]
      rw [← @mem_firstDedup _ _ a ks]
      simp [hak]

theorem nodup_firstDedup [DecidableEq α] : ∀ l : List α, (firstDedup l).Nodup
  | [] => List.Pairwise.nil
  | k :: ks => by
    simp only [firstDedup]
    refine List.Pairwise.cons ?_ ((nodup_firstDedup ks).filter _)
    intro y hy
    have := (List.mem_filter.1 hy).2
    simp only [decide_eq_true_eq] at this
    exact fun h => this h.symm

theorem sum_map_add {l : List α} (f g : α → ℚ) :
    (l.map fun a => f a + g a).sum = (l.map f).sum + (l.map g).sum := by
  induction l with
  | nil => simp
  | cons x xs ih => simp [ih]; ring

theorem sum_ite_of_not_mem [DecidableEq α] {a : α} (c : ℚ) :
    ∀ {keys : List α}, a ∉ keys → (keys.map fun k => if a = k then c else 0).sum = 0 := by
  intro keys
  induction keys with
  | nil => simp
  | cons k ks ih =>
    intro h
    rw [List.mem_cons, not_or] at h
    simp [h.1, ih h.2]

theorem sum_ite_of_nodup [DecidableEq α] {a : α} (c : ℚ) :
    ∀ {keys : List α}, keys.Nodup → a ∈ keys →
      (keys.map fun k => if a = k then c else 0).sum = c := by
  intro keys
  induction keys with
  | nil => simp
  | cons k ks ih =>
    intro hnd hm
    rw [List.nodup_cons] at hnd
    rcases List.mem_cons.1 hm with rfl | hm'
    · simp [sum_ite_of_not_mem c hnd.1]
    · have hak : a ≠ k := fun h => hnd.1 (h ▸ hm')
      simp [hak, ih hnd.2 hm']

theorem sum_fibers [DecidableEq K] (f : R → K) (g : R → ℚ) :
    ∀ (rows : List R) (keys : List K), keys.Nodup → (∀ r ∈ rows, f r ∈ keys) →
      (keys.map fun k => ((rows.filter fun r => f r = k).map g).sum).sum
        = (rows.map g).sum := by
  intro rows
  induction rows with
  | nil => intro keys _ _; simp
  | cons r rest ih =>
    intro keys hnd hcov
    have hstep : ∀ k : K,
        (((r :: rest).filter fun x => f x = k).map g).sum
          = (if f r = k then g r else 0) + ((rest.filter fun x => f x = k).map g).sum := by
      intro k
      rw [List.filter_cons]
      by_cases hk : f r = k
      · simp [hk]
      · simp [hk]
    have : (keys.map fun k => (((r :: rest).filter fun x => f x = k).map g).sum)
        = keys.map fun k => (if f r = k then g r else 0)
            + ((rest.filter fun x => f x = k).map g).sum := by
      exact List.map_congr_left fun k _ => hstep k
    rw [this, sum_map_add, ih keys hnd (fun x hx => hcov x (List.mem_cons_of_mem r hx)),
      sum_ite_of_nodup (g r) hnd (hcov r (List.mem_cons_self r rest))]
    simp

theorem lookupLast_eq_none {l : List (String × ℚ)} {c : String} :
    lookupLast c l = none ↔ ∀ p ∈ l, p.1 ≠ c := by
  simp only [lookupLast, Option.map_eq_none', List.find?_eq_none, List.mem_reverse,
    decide_eq_true_eq]

theorem lookupLast_eq_some_of_mem :
    ∀ {l : List (String × ℚ)} {c : String} {v : ℚ},
      (l.map Prod.fst).Nodup → (c, v) ∈ l → lookupLast c l = some v := by
  intro l
  induction l with
  | nil => intro c v _ hm; cases hm
  | cons p rest ih =>
    intro c v hnd hm
    rw [List.map_cons, List.nodup_cons] at hnd
    simp only [lookupLast, List.reverse_cons, List.find?_append]
    rcases List.mem_cons.1 hm with rfl | hm'
    · have hnone : List.find? (fun q => decide (q.1 = c)) rest.reverse = none := by
        rw [List.find?_eq_none]
        intro q hq
        simp only [decide_eq_true_eq]
        intro hq1
        have hq2 : q.1 ∈ rest.map Prod.fst :=
          List.mem_map_of_mem Prod.fst (List.mem_reverse.1 hq)
        rw [hq1] at hq2
        exact hnd.1 hq2
      rw [hnone]
      simp [List.find?_cons]
    · have hrest := ih hnd.2 hm'
      simp only [lookupLast] at hrest
      rcases h : List.find? (fun q => decide (q.1 = c)) rest.reverse with _ | q
      · rw [h] at hrest
        simp at hrest
      · rw [h] at hrest
        simp only [Option.map_some'] at hrest
        simp [h, hrest]

theorem roundHalfEven_intCast (m : ℤ) : roundHalfEven (m : ℚ) = m := by
  unfold roundHalfEven
  rw [Int.floor_intCast]
  simp

theorem round2_idem (q : ℚ) : round2 (round2 q) = round2 q := by
  unfold round2
  have h : ((roundHalfEven (q * 100) : ℚ) / 100) * 100 = (roundHalfEven (q * 100) : ℚ) := by
    field_simp
  rw [h, roundHalfEven_intCast]

/-! ### The claims -/

/-- C3: `iso_first_last_of_month(year, month)` returns the ISO dates of the
first and last calendar day of the month: the last day is day
`daysInMonth y m`, which for December is 31 and which for February is 29
in a leap year and 28 otherwise (the non-December case going through
`date(y, m+1, 1) - timedelta(days=1)`). -/
theorem month_bounds_correct (y m : ℕ) (h1 : 1 ≤ m) (h2 : m ≤ 12) :
    iso_first_last_of_month y m =
      (isoformat ⟨y, m, 1⟩, isoformat ⟨y, m, daysInMonth y m⟩) ∧
    (m = 2 → daysInMonth y m = if isLeap y then 29 else 28) ∧
    (m = 12 → daysInMonth y m = 31) := by
  refine ⟨?_, ?_, ?_⟩
  · interval_cases m <;>
      simp [iso_first_last_of_month, first_last_of_month, predDay, daysInMonth]
  · rintro rfl
    simp [daysInMonth]
  · rintro rfl
    simp [daysInMonth]

/-- Witness for C3 at the leap year 2024, month 2: the bounds are
`2024-02-01` and `2024-02-29`. -/
theorem month_bounds_correct_witness :
    ((1:ℕ) ≤ 2 ∧ (2:ℕ) ≤ 12 ∧ isLeap 2024 = true ∧
      iso_first_last_of_month 2024 2 = ("2024-02-01", "2024-02-29")) ∧
    (iso_first_last_of_month 2024 2 =
      (isoformat ⟨2024, 2, 1⟩, isoformat ⟨2024, 2, daysInMonth 2024 2⟩) ∧
     ((2:ℕ) = 2 → daysInMonth 2024 2 = if isLeap 2024 then 29 else 28) ∧
     ((2:ℕ) = 12 → daysInMonth 2024 2 = 31)) :=
  ⟨by decide, month_bounds_correct 2024 2 (by decide) (by decide)⟩

/-- C8: on a store whose sync row exists, `set_sync_state` keeps an
existing field wherever the corresponding argument is null and replaces
it wherever the argument is non-null (`COALESCE(excluded.col, col)`). -/
theorem sync_merge_preserves (s : Store) (a b ts hid : Option String)
    (h : s.syncRow = some (a, b)) :
    ∃ p : Option String × Option String,
      (set_sync_state ts hid s).syncRow = some p ∧
      (ts = none → p.1 = a) ∧ (∀ t, ts = some t → p.1 = some t) ∧
      (hid = none → p.2 = b) ∧ (∀ u, hid = some u → p.2 = some u) := by
  refine ⟨(coalesce ts a, coalesce hid b), ?_, ?_, ?_, ?_, ?_⟩
  · simp [set_sync_state, h]
  · rintro rfl; rfl
  · rintro t rfl; rfl
  · rintro rfl; rfl
  · rintro u rfl; rfl

/-- Witness for C8: a null timestamp with a fresh history id keeps the
stored timestamp and replaces the history id. -/
theorem sync_merge_preserves_witness :
    syncStore.syncRow = some (some "2025-01-01T00:00:00", some "H7") ∧
    ∃ p : Option String × Option String,
      (set_sync_state none (some "H9") syncStore).syncRow = some p ∧
      ((none : Option String) = none → p.1 = some "2025-01-01T00:00:00") ∧
      (∀ t, (none : Option String) = some t → p.1 = some t) ∧
      (some "H9" = (none : Option String) → p.2 = some "H7") ∧
      (∀ u, some "H9" = some u → p.2 = some u) :=
  ⟨rfl, sync_merge_preserves syncStore _ _ none (some "H9") rfl⟩

/-- C10: `save_expense` does not reject a record whose `amount` is absent,
null or zero: provided the external id does not collide, it inserts a row
whose stored amount is `0` (`float(exp.get("amount") or 0)`). -/
theorem save_missing_amount (exp : ExpenseInput) (s : Store)
    (hamt : exp.amount = none ∨ exp.amount = some 0)
    (hfree : ∀ eid, exp.email_id = some eid → email_already_processed eid s = false) :
    ∃ s', save_expense exp s = Except.ok s' ∧
      ∃ r : ExpenseRow, s'.expenses = s.expenses ++ [r] ∧ r.amount = 0 := by
  have hc : (match exp.email_id with
      | some eid => s.expenses.any (fun r => r.email_id = some eid)
      | none => false) = false := by
    cases h : exp.email_id with
    | none => rfl
    | some eid => exact hfree eid h
  have hsave : save_expense exp s = Except.ok { s with
      expenses := s.expenses ++
        [⟨s.nextId, exp.date, exp.vendor, pyOrZero exp.amount, exp.currency,
          exp.category, exp.source, exp.notes, exp.email_id⟩],
      nextId := s.nextId + 1 } := by
    simp only [save_expense]
    rw [hc]
    rfl
  refine ⟨_, hsave, _, rfl, ?_⟩
  rcases hamt with h | h <;> simp [h, pyOrZero]

/-- Witness for C10: saving an id-only record (absent amount) into the
empty store succeeds and stores amount `0`. -/
theorem save_missing_amount_witness :
    (idOnlyInput.amount = none ∨ idOnlyInput.amount = some 0) ∧
    (∀ eid, idOnlyInput.email_id = some eid →
      email_already_processed eid emptyStore = false) ∧
    ∃ s', save_expense idOnlyInput emptyStore = Except.ok s' ∧
      ∃ r : ExpenseRow, s'.expenses = emptyStore.expenses ++ [r] ∧ r.amount = 0 :=
  ⟨Or.inl rfl, fun _ _ => rfl,
   save_missing_amount idOnlyInput emptyStore (Or.inl rfl) (fun _ _ => rfl)⟩

/-- C1: after a successful save of an expense carrying external id `x`, a
second save with the same id is rejected by the uniqueness constraint, the
store holds exactly one row keyed `x`, and at-most-one-row-per-id is
preserved. -/
theorem external_id_unique (e1 e2 : ExpenseInput) (x : String) (s s1 : Store)
    (h1 : e1.email_id = some x) (h2 : e2.email_id = some x)
    (hsave : save_expense e1 s = Except.ok s1) :
    save_expense e2 s1 = Except.error "UNIQUE constraint failed: expenses.email_id" ∧
    s1.expenses.countP (fun r => decide (r.email_id = some x)) = 1 ∧
    ((∀ y, s.expenses.countP (fun r => decide (r.email_id = some y)) ≤ 1) →
      ∀ y, s1.expenses.countP (fun r => decide (r.email_id = some y)) ≤ 1) := by
  simp only [save_expense, h1] at hsave
  cases hany : s.expenses.any (fun r => r.email_id = some x) with
  | true =>
    rw [hany] at hsave
    simp at hsave
  | false =>
    rw [hany] at hsave
    simp only [Bool.false_eq_true, if_false, Except.ok.injEq] at hsave
    have hzero : s.expenses.countP (fun r => decide (r.email_id = some x)) = 0 := by
      rw [List.countP_eq_zero]
      intro r hr
      have := List.any_eq_false.mp hany r hr
      simpa using this
    subst hsave
    refine ⟨?_, ?_, ?_⟩
    · simp [save_expense, h2, List.any_append]
    · simp [List.countP_append, hzero, List.countP_cons]
    · intro hinv y
      rw [List.countP_append]
      by_cases hxy : x = y
      · subst hxy
        have : s.expenses.countP (fun r => decide (r.email_id = some x)) = 0 := hzero
        simp [this, List.countP_cons]
      · have h1' : ([(⟨s.nextId, e1.date, e1.vendor, pyOrZero e1.amount, e1.currency,
            e1.category, e1.source, e1.notes, some x⟩ : ExpenseRow)].countP
            (fun r => decide (r.email_id = some y))) = 0 := by
          simp [List.countP_cons, hxy]
        rw [h1']
        simpa using hinv y

/-- Witness for C1: saving the same external id `m1` twice starting from
the empty store: the second save errors and one row keyed `m1` remains. -/
theorem external_id_unique_witness :
    idOnlyInput.email_id = some "m1" ∧
    save_expense idOnlyInput emptyStore = Except.ok idOnlyStore ∧
    (save_expense idOnlyInput idOnlyStore =
        Except.error "UNIQUE constraint failed: expenses.email_id" ∧
      idOnlyStore.expenses.countP (fun r => decide (r.email_id = some "m1")) = 1 ∧
      ((∀ y, emptyStore.expenses.countP (fun r => decide (r.email_id = some y)) ≤ 1) →
        ∀ y, idOnlyStore.expenses.countP (fun r => decide (r.email_id = some y)) ≤ 1)) :=
  ⟨rfl, rfl, external_id_unique idOnlyInput idOnlyInput "m1" emptyStore idOnlyStore rfl rfl rfl⟩

/-- C2: the per-group totals of `aggregate_by_field`, summed over all
groups, equal `total_spent` over the same date range, and `total_spent`
is `0` when no expense falls in the range. -/
theorem aggregate_total_consistency (start_date end_date field : String) (s : Store) :
    ((aggregate_by_field start_date end_date field s).map (·.total)).sum
      = total_spent start_date end_date s ∧
    ((∀ x ∈ s.expenses, inRangeB start_date end_date x = false) →
      total_spent start_date end_date s = 0) := by
  constructor
  · simp only [aggregate_by_field, total_spent]
    have key : ∀ G : List AggRow,
        (List.map (fun x => x.total)
          (sortBy (fun a b => decide (b.total ≤ a.total)) G)).sum
          = (List.map (fun x => x.total) G).sum :=
      fun G => (List.Perm.map _ (sortBy_perm _ G)).sum_eq
    rw [key, List.map_map]
    exact sum_fibers (sel field) (·.amount) _ _ (nodup_firstDedup _)
      (fun r hr => mem_firstDedup.mpr (List.mem_map_of_mem _ hr))
  · intro h
    unfold total_spent
    have hnil : s.expenses.filter (inRangeB start_date end_date) = [] := by
      rw [List.filter_eq_nil_iff]
      intro a ha
      simp [h a ha]
    rw [hnil]
    rfl

/-- Witness for C2 on a range containing no expense of `foodStore`: both
conjuncts instantiate and the total is `0`. -/
theorem aggregate_total_consistency_witness :
    (∀ x ∈ foodStore.expenses, inRangeB "2025-01-01" "2025-01-31" x = false) ∧
    (((aggregate_by_field "2025-01-01" "2025-01-31" "category" foodStore).map (·.total)).sum
      = total_spent "2025-01-01" "2025-01-31" foodStore ∧
    ((∀ x ∈ foodStore.expenses, inRangeB "2025-01-01" "2025-01-31" x = false) →
      total_spent "2025-01-01" "2025-01-31" foodStore = 0)) :=
  ⟨by decide, aggregate_total_consistency "2025-01-01" "2025-01-31" "category" foodStore⟩

theorem save_expense_syncRow {exp : ExpenseInput} {s s' : Store}
    (h : save_expense exp s = Except.ok s') : s'.syncRow = s.syncRow := by
  simp only [save_expense] at h
  split at h
  · cases h
  · cases h
    rfl

theorem processEmail_syncRow (classify : EmailMsg → Classification)
    (acc : Store × SweepStats) (e : EmailMsg) :
    (processEmail classify acc e).1.syncRow = acc.1.syncRow := by
  unfold processEmail
  by_cases hc : ((classify e).is_expense && decide ((7 : ℚ)/10 ≤ (classify e).confidence)) = true
  · rw [if_pos hc]
    cases hed : (classify e).expense_data with
    | none => rfl
    | some ed =>
      dsimp only
      by_cases ha : truthyAmount ed.amount = true
      · rw [if_pos ha]
        cases hs : save_expense (gmailInput ed e) acc.1 with
        | ok s' => simpa using save_expense_syncRow hs
        | error msg => rfl
      · rw [if_neg ha]
  · rw [if_neg hc]

theorem fold_processEmail_syncRow (classify : EmailMsg → Classification) :
    ∀ (emails : List EmailMsg) (acc : Store × SweepStats),
      (emails.foldl (processEmail classify) acc).1.syncRow = acc.1.syncRow
  | [], _ => rfl
  | e :: rest, acc => by
    rw [List.foldl_cons, fold_processEmail_syncRow classify rest _,
      processEmail_syncRow]

/-- C5 (amended): every sweep that runs to the end of
`pull_and_process_emails` advances the sync timestamp to `now` — including
sweeps in which storage writes fail, because `except Exception: pass`
swallows every `save_expense` failure (the model is total: no failure
escapes the loop).  The stored history id is untouched. -/
theorem sweep_always_advances_cursor (classify : EmailMsg → Classification)
    (now : String) (emails : List EmailMsg) (s : Store) :
    (pull_and_process_emails classify now emails s).1.syncRow
      = some (some now, (get_sync_state s).2) := by
  have h := fold_processEmail_syncRow classify emails (s, ⟨emails.length, 0, 0⟩)
  simp only [pull_and_process_emails, set_sync_state]
  rw [h]
  cases hs : s.syncRow with
  | none => simp [get_sync_state, hs]
  | some p => simp [get_sync_state, hs, coalesce]

/-- Counterexample to C5 as stated: a sweep over two emails with the same
Gmail id.  The second `save_expense` fails on the uniqueness constraint,
yet the sweep returns normally (stats `{2, 2, 1}`) and the sync cursor is
still advanced to `now` — the storage failure neither propagates nor
prevents the cursor update. -/
theorem sweep_cursor_advance_on_failure :
    (pull_and_process_emails classifyAmount "2025-11-20T12:00:00"
        [email1, email1] emptyStore).2 = ⟨2, 2, 1⟩ ∧
    (pull_and_process_emails classifyAmount "2025-11-20T12:00:00"
        [email1, email1] emptyStore).1.syncRow
      = some (some "2025-11-20T12:00:00", none) := by
  have h710 : ((7:ℚ)/10 ≤ 1) := by norm_num
  constructor <;>
    simp [pull_and_process_emails, processEmail, classifyAmount, email1,
      emptyStore, save_expense, gmailInput, truthyAmount, set_sync_state,
      h710]

theorem save_expense_ok_of_fresh (exp : ExpenseInput) (s : Store)
    (h : ∀ eid, exp.email_id = some eid →
      s.expenses.any (fun r => r.email_id = some eid) = false) :
    save_expense exp s = Except.ok { s with
      expenses := s.expenses ++
        [⟨s.nextId, exp.date, exp.vendor, pyOrZero exp.amount, exp.currency,
          exp.category, exp.source, exp.notes, exp.email_id⟩],
      nextId := s.nextId + 1 } := by
  have hc : (match exp.email_id with
      | some eid => s.expenses.any (fun r => r.email_id = some eid)
      | none => false) = false := by
    cases he : exp.email_id with
    | none => rfl
    | some eid => exact h eid he
  simp only [save_expense]
  rw [hc]
  rfl

theorem fold_processEmail_spec (classify : EmailMsg → Classification) :
    ∀ (emails : List EmailMsg) (s : Store) (stats : SweepStats),
      (∀ e ∈ emails, ∀ r ∈ s.expenses, r.email_id ≠ some e.id) →
      (emails.map (·.id)).Nodup →
      (emails.foldl (processEmail classify) (s, stats)).2.emails_checked
          = stats.emails_checked ∧
      (emails.foldl (processEmail classify) (s, stats)).2.expenses_found
          = stats.expenses_found + emails.countP (fun e => confidentB (classify e)) ∧
      (emails.foldl (processEmail classify) (s, stats)).2.expenses_saved
          = stats.expenses_saved + emails.countP (fun e => savableB (classify e)) ∧
      (∀ r ∈ (emails.foldl (processEmail classify) (s, stats)).1.expenses,
        r ∈ s.expenses ∨
          ∃ e ∈ emails, savableB (classify e) = true ∧ r.email_id = some e.id) := by
  intro emails
  induction emails with
  | nil =>
    intro s stats _ _
    refine ⟨rfl, by simp, by simp, ?_⟩
    intro r hr
    exact Or.inl hr
  | cons e rest ih =>
    intro s stats hFresh hNodup
    rw [List.map_cons, List.nodup_cons] at hNodup
    have hFreshRest : ∀ e' ∈ rest, ∀ r ∈ s.expenses, r.email_id ≠ some e'.id :=
      fun e' he' => hFresh e' (List.mem_cons_of_mem e he')
    rw [List.foldl_cons]
    by_cases hc : confidentB (classify e) = true
    · have hc' : ((classify e).is_expense
          && decide ((7 : ℚ)/10 ≤ (classify e).confidence)) = true := hc
      cases hed : (classify e).expense_data with
      | none =>
        have hsav : savableB (classify e) = false := by
          simp [savableB, hed]
        have hpe : processEmail classify (s, stats) e =
            (s, { stats with expenses_found := stats.expenses_found + 1 }) := by
          unfold processEmail
          rw [if_pos hc', hed]
        rw [hpe]
        obtain ⟨i1, i2, i3, i4⟩ := ih s _ hFreshRest hNodup.2
        refine ⟨i1, ?_, ?_, ?_⟩
        · rw [i2, List.countP_cons]
          simp [hc]
          omega
        · rw [i3, List.countP_cons]
          simp [hsav]
        · intro r hr
          rcases i4 r hr with h | ⟨e', he', hs', hid⟩
          · exact Or.inl h
          · exact Or.inr ⟨e', List.mem_cons_of_mem e he', hs', hid⟩
      | some ed =>
        by_cases ha : truthyAmount ed.amount = true
        · have hsav : savableB (classify e) = true := by
            simp [savableB, hed, ha, hc]
          have hany : s.expenses.any
              (fun r => r.email_id = some e.id) = false := by
            rw [List.any_eq_false]
            intro r hr
            simpa using hFresh e (List.mem_cons_self e rest) r hr
          have hsave := save_expense_ok_of_fresh (gmailInput ed e) s
            (by intro eid heid
                cases heid
                exact hany)
          have hpe : processEmail classify (s, stats) e =
              ({ s with
                  expenses := s.expenses ++
                    [⟨s.nextId, ed.date, ed.vendor, pyOrZero ed.amount, ed.currency,
                      ed.category, some "gmail", gmailNotes ed.notes e.sender,
                      some e.id⟩],
                  nextId := s.nextId + 1 },
                { stats with
                    expenses_found := stats.expenses_found + 1,
                    expenses_saved := stats.expenses_saved + 1 }) := by
            unfold processEmail
            rw [if_pos hc', hed]
            dsimp only
            rw [if_pos ha, hsave]
            rfl
          rw [hpe]
          have hFresh2 : ∀ e' ∈ rest, ∀ r ∈ s.expenses ++
              [(⟨s.nextId, ed.date, ed.vendor, pyOrZero ed.amount, ed.currency,
                ed.category, some "gmail", gmailNotes ed.notes e.sender,
                some e.id⟩ : ExpenseRow)],
              r.email_id ≠ some e'.id := by
            intro e' he' r hr
            rcases List.mem_append.1 hr with h | h
            · exact hFreshRest e' he' r h
            · rcases List.mem_singleton.1 h with rfl
              intro hcontra
              simp only [Option.some.injEq] at hcontra
              exact hNodup.1 (hcontra ▸ List.mem_map_of_mem (·.id) he')
          obtain ⟨i1, i2, i3, i4⟩ := ih
            { s with
                expenses := s.expenses ++
                  [⟨s.nextId, ed.date, ed.vendor, pyOrZero ed.amount, ed.currency,
                    ed.category, some "gmail", gmailNotes ed.notes e.sender,
                    some e.id⟩],
                nextId := s.nextId + 1 }
            { stats with
                expenses_found := stats.expenses_found + 1,
                expenses_saved := stats.expenses_saved + 1 }
            hFresh2 hNodup.2
          refine ⟨i1, ?_, ?_, ?_⟩
          · rw [i2, List.countP_cons]
            simp [hc]
            omega
          · rw [i3, List.countP_cons]
            simp [hsav]
            omega
          · intro r hr
            rcases i4 r hr with h | ⟨e', he', hs', hid⟩
            · rcases List.mem_append.1 h with h' | h'
              · exact Or.inl h'
              · rcases List.mem_singleton.1 h' with rfl
                exact Or.inr ⟨e, List.mem_cons_self e rest, hsav, rfl⟩
            · exact Or.inr ⟨e', List.mem_cons_of_mem e he', hs', hid⟩
        · have hsav : savableB (classify e) = false := by
            simp [savableB, hed, ha]
          have hpe : processEmail classify (s, stats) e =
              (s, { stats with expenses_found := stats.expenses_found + 1 }) := by
            unfold processEmail
            rw [if_pos hc', hed]
            dsimp only
            rw [if_neg ha]
          rw [hpe]
          obtain ⟨i1, i2, i3, i4⟩ := ih s _ hFreshRest hNodup.2
          refine ⟨i1, ?_, ?_, ?_⟩
          · rw [i2, List.countP_cons]
            simp [hc]
            omega
          · rw [i3, List.countP_cons]
            simp [hsav]
          · intro r hr
            rcases i4 r hr with h | ⟨e', he', hs', hid⟩
            · exact Or.inl h
            · exact Or.inr ⟨e', List.mem_cons_of_mem e he', hs', hid⟩
    · have hc' : ¬ ((classify e).is_expense
          && decide ((7 : ℚ)/10 ≤ (classify e).confidence)) = true := hc
      have hcf : confidentB (classify e) = false := by
        rwa [Bool.not_eq_true] at hc
      have hsav : savableB (classify e) = false := by
        simp [savableB, hcf]
      have hpe : processEmail classify (s, stats) e = (s, stats) := by
        unfold processEmail
        rw [if_neg hc']
      rw [hpe]
      obtain ⟨i1, i2, i3, i4⟩ := ih s stats hFreshRest hNodup.2
      refine ⟨i1, ?_, ?_, ?_⟩
      · rw [i2, List.countP_cons]
        simp [hc]
      · rw [i3, List.countP_cons]
        simp [hsav]
      · intro r hr
        rcases i4 r hr with h | ⟨e', he', hs', hid⟩
        · exact Or.inl h
        · exact Or.inr ⟨e', List.mem_cons_of_mem e he', hs', hid⟩

theorem set_sync_state_expenses (t h : Option String) (s : Store) :
    (set_sync_state t h s).expenses = s.expenses := by
  unfold set_sync_state
  cases s.syncRow <;> rfl

/-- C4 (amended): over a batch of fresh, distinct Gmail ids, the sweep
counts every email as checked; it counts an email in `expenses_found` as
soon as the classifier reports an expense with confidence at least `0.7`
(whether or not an amount is present); it persists (and counts in
`expenses_saved`) exactly the emails that moreover carry a truthy amount;
and no email failing the persist condition leaves a row keyed by its id. -/
theorem sweep_threshold_counts (classify : EmailMsg → Classification)
    (now : String) (emails : List EmailMsg) (s : Store)
    (hFresh : ∀ e ∈ emails, ∀ r ∈ s.expenses, r.email_id ≠ some e.id)
    (hNodup : (emails.map (·.id)).Nodup) :
    (pull_and_process_emails classify now emails s).2.emails_checked = emails.length ∧
    (pull_and_process_emails classify now emails s).2.expenses_found
      = emails.countP (fun e => confidentB (classify e)) ∧
    (pull_and_process_emails classify now emails s).2.expenses_saved
      = emails.countP (fun e => savableB (classify e)) ∧
    (∀ e ∈ emails, savableB (classify e) = false →
      ∀ r ∈ (pull_and_process_emails classify now emails s).1.expenses,
        r.email_id ≠ some e.id) := by
  obtain ⟨i1, i2, i3, i4⟩ :=
    fold_processEmail_spec classify emails s ⟨emails.length, 0, 0⟩ hFresh hNodup
  simp only [pull_and_process_emails]
  refine ⟨i1, by rw [i2]; simp, by rw [i3]; simp, ?_⟩
  intro e he hsav r hr
  rw [set_sync_state_expenses] at hr
  rcases i4 r hr with h | ⟨e', he', hs', hid⟩
  · exact hFresh e he r h
  · rw [hid]
    intro hcontra
    simp only [Option.some.injEq] at hcontra
    have : e = e' := List.inj_on_of_nodup_map hNodup he he' hcontra.symm
    rw [this, hs'] at hsav
    cases hsav

/-- Counterexample to C4 as stated: one email classified as an expense
with confidence `1` but with no amount.  It is counted in
`expenses_found` (1) although it fails the amount condition, and it is
not saved — the claim's "in neither expenses_found nor expenses_saved"
is false for the found counter. -/
theorem sweep_found_without_amount :
    (pull_and_process_emails classifyNoAmount "2025-11-20T12:00:00"
        [email1] emptyStore).2 = ⟨1, 1, 0⟩ := by
  have h710 : ((7:ℚ)/10 ≤ 1) := by norm_num
  simp [pull_and_process_emails, processEmail, classifyNoAmount, email1,
    emptyStore, truthyAmount, set_sync_state, h710]

/-- Witness for C4 on a two-email batch with fresh distinct ids over the
empty store, classified with amounts: both found and both saved. -/
theorem sweep_threshold_counts_witness :
    (∀ e ∈ [email1, email2], ∀ r ∈ emptyStore.expenses, r.email_id ≠ some e.id) ∧
    (([email1, email2].map (·.id)).Nodup) ∧
    ((pull_and_process_emails classifyAmount "2025-11-20T12:00:00"
        [email1, email2] emptyStore).2.emails_checked = [email1, email2].length ∧
     (pull_and_process_emails classifyAmount "2025-11-20T12:00:00"
        [email1, email2] emptyStore).2.expenses_found
       = [email1, email2].countP (fun e => confidentB (classifyAmount e)) ∧
     (pull_and_process_emails classifyAmount "2025-11-20T12:00:00"
        [email1, email2] emptyStore).2.expenses_saved
       = [email1, email2].countP (fun e => savableB (classifyAmount e)) ∧
     (∀ e ∈ [email1, email2], savableB (classifyAmount e) = false →
       ∀ r ∈ (pull_and_process_emails classifyAmount "2025-11-20T12:00:00"
          [email1, email2] emptyStore).1.expenses,
         r.email_id ≠ some e.id)) :=
  ⟨by simp [emptyStore], by decide,
   sweep_threshold_counts classifyAmount "2025-11-20T12:00:00"
     [email1, email2] emptyStore (by simp [emptyStore]) (by decide)⟩

theorem rowLe_total : ∀ a b : ExpenseRow,
    (fun a b : ExpenseRow => dateLe a.date b.date) a b = false →
    (fun a b : ExpenseRow => dateLe a.date b.date) b a = true :=
  fun a b h => dateLe_total a.date b.date h

theorem rowLe_trans : ∀ a b c : ExpenseRow,
    (fun a b : ExpenseRow => dateLe a.date b.date) a b = true →
    (fun a b : ExpenseRow => dateLe a.date b.date) b c = true →
    (fun a b : ExpenseRow => dateLe a.date b.date) a c = true :=
  fun _ _ _ h1 h2 => dateLe_trans h1 h2

theorem get_category_spending_eq (category : String) (y m : ℕ) (s : Store) :
    get_category_spending category y m s =
      ⟨category, toString y ++ "-" ++ twoDigits m,
       round2 (((catMonthRows category y m s).map (·.amount)).sum),
       (catMonthRows category y m s).length,
       ((catMonthRows category y m s).drop
          ((catMonthRows category y m s).length - 10)).map
         (fun e => ⟨e.date, e.vendor, e.amount⟩)⟩ := by
  unfold get_category_spending get_expenses_between catMonthRows
  dsimp only
  rw [filter_sortBy rowLe_total rowLe_trans
    (fun e => decide (lowerStr (pyOrStr "" e.category) = lowerStr category))
    (s.expenses.filter
      (inRangeB (iso_first_last_of_month y m).1 (iso_first_last_of_month y m).2)),
    List.filter_filter]
  rfl

/-- C7 (amended): `get_category_spending` matches the category
case-insensitively, returns the rounded total and the count over the
matching expenses of the month, and returns the most recent 10 matching
transactions — but ordered date-ASCENDING (oldest first, the tail of the
`ORDER BY date ASC` list, not reversed). -/
theorem category_spending_correct (category : String) (y m : ℕ) (s : Store) :
    (get_category_spending category y m s).total
      = round2 (((catMonthRows category y m s).map (·.amount)).sum) ∧
    (get_category_spending category y m s).transaction_count
      = s.expenses.countP (fun x => catMatchB category x && monthRangeB y m x) ∧
    (get_category_spending category y m s).transactions
      = ((catMonthRows category y m s).drop
          ((catMonthRows category y m s).length - 10)).map
         (fun e => ⟨e.date, e.vendor, e.amount⟩) ∧
    List.Pairwise (fun t1 t2 : TransEntry => dateLe t1.date t2.date = true)
      (get_category_spending category y m s).transactions ∧
    (∀ t ∈ (get_category_spending category y m s).transactions,
      ∃ x ∈ s.expenses, monthRangeB y m x = true ∧ catMatchB category x = true ∧
        t.date = x.date ∧ t.vendor = x.vendor ∧ t.amount = x.amount) := by
  rw [get_category_spending_eq]
  have hsorted : (catMonthRows category y m s).Pairwise
      (fun a b : ExpenseRow => dateLe a.date b.date = true) :=
    pairwise_sortBy rowLe_total rowLe_trans _
  refine ⟨rfl, ?_, rfl, ?_, ?_⟩
  · have := (sortBy_perm (fun a b : ExpenseRow => dateLe a.date b.date)
      (s.expenses.filter fun x => catMatchB category x && monthRangeB y m x)).length_eq
    simp only [catMonthRows]
    rw [this, List.countP_eq_length_filter]
  · refine List.Pairwise.map _ (fun a b h => h) ?_
    exact List.Pairwise.sublist (List.drop_sublist _ _) hsorted
  · intro t ht
    simp only [List.mem_map] at ht
    obtain ⟨x, hx, rfl⟩ := ht
    have hx2 : x ∈ catMonthRows category y m s :=
      ((catMonthRows category y m s).drop_sublist _).mem hx
    have hx3 := mem_sortBy.1 hx2
    have hx4 := List.mem_filter.1 hx3
    have hx5 := hx4.2
    rw [Bool.and_eq_true] at hx5
    exact ⟨x, hx4.1, hx5.2, hx5.1, rfl, rfl, rfl⟩

/-- Counterexample to C7 as stated: two case-variant `food` expenses on
Nov 1 and Nov 2; the returned transactions list is `[Nov 1, Nov 2]` —
oldest first, not most-recent-first. -/
theorem category_transactions_oldest_first :
    ((get_category_spending "FOOD" 2025 11 caseStore).transactions.map (·.date))
      = [some "2025-11-01", some "2025-11-02"] ∧
    strLe "2025-11-02" "2025-11-01" = false := by
  constructor
  · decide
  · decide

/-- Witness for C7 at the two-expense case-variant store: the theorem
instantiated at `"FOOD"`, November 2025. -/
theorem category_spending_correct_witness :
    ((get_category_spending "FOOD" 2025 11 caseStore).total
      = round2 (((catMonthRows "FOOD" 2025 11 caseStore).map (·.amount)).sum) ∧
    (get_category_spending "FOOD" 2025 11 caseStore).transaction_count
      = caseStore.expenses.countP
          (fun x => catMatchB "FOOD" x && monthRangeB 2025 11 x) ∧
    (get_category_spending "FOOD" 2025 11 caseStore).transactions
      = ((catMonthRows "FOOD" 2025 11 caseStore).drop
          ((catMonthRows "FOOD" 2025 11 caseStore).length - 10)).map
         (fun e => ⟨e.date, e.vendor, e.amount⟩) ∧
    List.Pairwise (fun t1 t2 : TransEntry => dateLe t1.date t2.date = true)
      (get_category_spending "FOOD" 2025 11 caseStore).transactions ∧
    (∀ t ∈ (get_category_spending "FOOD" 2025 11 caseStore).transactions,
      ∃ x ∈ caseStore.expenses, monthRangeB 2025 11 x = true ∧
        catMatchB "FOOD" x = true ∧
        t.date = x.date ∧ t.vendor = x.vendor ∧ t.amount = x.amount)) ∧
    (get_category_spending "FOOD" 2025 11 caseStore).transaction_count = 2 :=
  ⟨category_spending_correct "FOOD" 2025 11 caseStore, by decide⟩

/-- C9 (amended): the aggregate monetary fields of the chat-tool
responses — `get_monthly_summary`'s total and per-group amounts,
`get_budget_status`'s spent and remaining, `get_category_spending`'s
total — are rounded to two decimals (fixed points of `round2`); but the
per-transaction amounts of `get_recent_expenses` and of
`get_category_spending`'s transactions list are returned verbatim from
the store, unrounded. -/
theorem monetary_fields_rounding (y m nY nM limit : ℕ) (cat : String) (s : Store) :
    round2 (get_monthly_summary y m s).total_spent
        = (get_monthly_summary y m s).total_spent ∧
    (∀ c ∈ (get_monthly_summary y m s).by_category, round2 c.amount = c.amount) ∧
    (∀ v ∈ (get_monthly_summary y m s).top_vendors, round2 v.amount = v.amount) ∧
    (∀ en ∈ get_budget_status nY nM s, round2 en.spent = en.spent ∧
      ∀ r, en.remaining = some r → round2 r = r) ∧
    round2 (get_category_spending cat y m s).total
        = (get_category_spending cat y m s).total ∧
    (∀ en ∈ get_recent_expenses nY nM limit s,
      ∃ x ∈ s.expenses, en.amount = x.amount) ∧
    (∀ t ∈ (get_category_spending cat y m s).transactions,
      ∃ x ∈ s.expenses, t.amount = x.amount) := by
  refine ⟨?_, ?_, ?_, ?_, ?_, ?_, ?_⟩
  · exact round2_idem _
  · intro c hc
    simp only [get_monthly_summary, List.mem_map] at hc
    obtain ⟨a, _, rfl⟩ := hc
    exact round2_idem _
  · intro v hv
    simp only [get_monthly_summary, List.mem_map] at hv
    obtain ⟨a, _, rfl⟩ := hv
    exact round2_idem _
  · intro en hen
    simp only [get_budget_status] at hen
    rcases List.mem_append.1 hen with h | h
    · obtain ⟨bg, _, rfl⟩ := List.mem_map.1 h
      refine ⟨round2_idem _, ?_⟩
      intro r hr
      simp only [Option.some.injEq] at hr
      rw [← hr]
      exact round2_idem _
    · obtain ⟨c, _, rfl⟩ := List.mem_map.1 h
      refine ⟨round2_idem _, ?_⟩
      intro r hr
      cases hr
  · exact round2_idem _
  · intro en hen
    simp only [get_recent_expenses, List.mem_map] at hen
    obtain ⟨x, hx, rfl⟩ := hen
    rw [List.mem_reverse] at hx
    have hxE : x ∈ get_expenses_between (iso_first_last_of_month nY nM).1
        (iso_first_last_of_month nY nM).2 s := by
      split at hx
      · split at hx
        · exact hx
        · exact (List.drop_sublist _ _).mem hx
      · exact hx
    have := List.mem_filter.1 (mem_sortBy.1 hxE)
    exact ⟨x, this.1, rfl⟩
  · intro t ht
    rw [get_category_spending_eq] at ht
    simp only [List.mem_map] at ht
    obtain ⟨x, hx, rfl⟩ := ht
    have hx2 : x ∈ catMonthRows cat y m s := (List.drop_sublist _ _).mem hx
    have := List.mem_filter.1 (mem_sortBy.1 hx2)
    exact ⟨x, this.1, rfl⟩

/-- Counterexample to C9 as stated: a stored amount of `1/8 = 0.125`
(exactly representable as a binary float) is returned verbatim by
`get_recent_expenses`; rounded to two decimals it would be `0.12`. -/
theorem recent_amount_not_rounded :
    get_recent_expenses 2025 11 10 eighthStore
      = [⟨some "2025-11-03", "Unknown", 1/8, "Food", ""⟩] ∧
    round2 (1/8) ≠ (1/8 : ℚ) := by
  constructor
  · have hb : iso_first_last_of_month 2025 11 = ("2025-11-01", "2025-11-30") := by
      decide
    simp [get_recent_expenses, get_expenses_between, eighthStore, eighthRow, hb,
      inRangeB, strLe, charsLe, sortBy, insBy, pyOrStr]
  · norm_num [round2, roundHalfEven]

/-- Witness for C9 at `eighthStore`: the amended theorem instantiated. -/
theorem monetary_fields_rounding_witness :
    round2 (get_monthly_summary 2025 11 eighthStore).total_spent
        = (get_monthly_summary 2025 11 eighthStore).total_spent ∧
    (∀ c ∈ (get_monthly_summary 2025 11 eighthStore).by_category,
      round2 c.amount = c.amount) ∧
    (∀ v ∈ (get_monthly_summary 2025 11 eighthStore).top_vendors,
      round2 v.amount = v.amount) ∧
    (∀ en ∈ get_budget_status 2025 11 eighthStore, round2 en.spent = en.spent ∧
      ∀ r, en.remaining = some r → round2 r = r) ∧
    round2 (get_category_spending "Food" 2025 11 eighthStore).total
        = (get_category_spending "Food" 2025 11 eighthStore).total ∧
    (∀ en ∈ get_recent_expenses 2025 11 10 eighthStore,
      ∃ x ∈ eighthStore.expenses, en.amount = x.amount) ∧
    (∀ t ∈ (get_category_spending "Food" 2025 11 eighthStore).transactions,
      ∃ x ∈ eighthStore.expenses, t.amount = x.amount) :=
  monetary_fields_rounding 2025 11 2025 11 10 "Food" eighthStore

theorem agg_category_eq (b1 b2 : String) (s : Store) :
    aggregate_by_field b1 b2 "category" s
      = sortBy (fun a b => decide (b.total ≤ a.total))
          ((firstDedup ((s.expenses.filter (inRangeB b1 b2)).map (·.category))).map
            (fun k => AggRow.mk (display k)
              ((((s.expenses.filter (inRangeB b1 b2)).filter
                  (fun x => x.category = k)).map (·.amount)).sum)
              (((s.expenses.filter (inRangeB b1 b2)).filter
                  (fun x => x.category = k)).length))) := rfl

theorem keys_shape (b1 b2 : String) (s : Store)
    (hcat : ∀ x ∈ s.expenses, inRangeB b1 b2 x = true →
      ∃ c, x.category = some c ∧ c ≠ "") :
    ∀ k ∈ (firstDedup ((s.expenses.filter (inRangeB b1 b2)).map (·.category))),
      ∃ c, k = some c ∧ c ≠ "" ∧
        ∃ x ∈ s.expenses, inRangeB b1 b2 x = true ∧ x.category = some c := by
  intro k hk
  rw [mem_firstDedup, List.mem_map] at hk
  obtain ⟨x, hx, rfl⟩ := hk
  have hxf := List.mem_filter.1 hx
  obtain ⟨c, hc, hne⟩ := hcat x hxf.1 hxf.2
  exact ⟨c, hc, hne, x, hxf.1, hxf.2, hc⟩

theorem spend_fiber (b1 b2 : String) (s : Store) (c : String) :
    ((((s.expenses.filter (inRangeB b1 b2)).filter (fun x => x.category = some c)).map (·.amount)).sum)
      = spendIn b1 b2 c s := by
  unfold spendIn
  rw [List.filter_filter]

theorem spent_lookup (b1 b2 : String) (s : Store)
    (hcat : ∀ x ∈ s.expenses, inRangeB b1 b2 x = true →
      ∃ c, x.category = some c ∧ c ≠ "") (c : String) :
    (lookupLast c ((aggregate_by_field b1 b2 "category" s).map (fun g => (g.field, g.total)))).getD 0
      = spendIn b1 b2 c s := by
  rw [agg_category_eq]
  have hperm : (((sortBy (fun a b => decide (b.total ≤ a.total)) ((firstDedup ((s.expenses.filter (inRangeB b1 b2)).map (·.category))).map (fun k => AggRow.mk (display k)
      ((((s.expenses.filter (inRangeB b1 b2)).filter (fun x => x.category = k)).map (·.amount)).sum)
      (((s.expenses.filter (inRangeB b1 b2)).filter (fun x => x.category = k)).length)))).map (fun g => (g.field, g.total)))).Perm (((firstDedup ((s.expenses.filter (inRangeB b1 b2)).map (·.category))).map (fun k => AggRow.mk (display k)
      ((((s.expenses.filter (inRangeB b1 b2)).filter (fun x => x.category = k)).map (·.amount)).sum)
      (((s.expenses.filter (inRangeB b1 b2)).filter (fun x => x.category = k)).length))).map (fun g => (g.field, g.total))) :=
    (sortBy_perm _ _).map _
  have hinj : ∀ k1 ∈ (firstDedup ((s.expenses.filter (inRangeB b1 b2)).map (·.category))), ∀ k2 ∈ (firstDedup ((s.expenses.filter (inRangeB b1 b2)).map (·.category))), display k1 = display k2 → k1 = k2 := by
    intro k1 h1 k2 h2 hd
    obtain ⟨c1, rfl, hne1, -⟩ := keys_shape b1 b2 s hcat k1 h1
    obtain ⟨c2, rfl, hne2, -⟩ := keys_shape b1 b2 s hcat k2 h2
    simp only [display, if_neg hne1, if_neg hne2] at hd
    rw [hd]
  have hfst : ((((firstDedup ((s.expenses.filter (inRangeB b1 b2)).map (·.category))).map (fun k => AggRow.mk (display k)
      ((((s.expenses.filter (inRangeB b1 b2)).filter (fun x => x.category = k)).map (·.amount)).sum)
      (((s.expenses.filter (inRangeB b1 b2)).filter (fun x => x.category = k)).length))).map (fun g => (g.field, g.total))).map Prod.fst) = (firstDedup ((s.expenses.filter (inRangeB b1 b2)).map (·.category))).map display := by
    simp only [List.map_map]
    rfl
  have hnodupKeys : (((((firstDedup ((s.expenses.filter (inRangeB b1 b2)).map (·.category))).map (fun k => AggRow.mk (display k)
      ((((s.expenses.filter (inRangeB b1 b2)).filter (fun x => x.category = k)).map (·.amount)).sum)
      (((s.expenses.filter (inRangeB b1 b2)).filter (fun x => x.category = k)).length))).map (fun g => (g.field, g.total)))).map Prod.fst).Nodup := by
    rw [hfst]
    exact (nodup_firstDedup _).map_on hinj
  have hnodupSorted : (((sortBy (fun a b => decide (b.total ≤ a.total)) ((firstDedup ((s.expenses.filter (inRangeB b1 b2)).map (·.category))).map (fun k => AggRow.mk (display k)
      ((((s.expenses.filter (inRangeB b1 b2)).filter (fun x => x.category = k)).map (·.amount)).sum)
      (((s.expenses.filter (inRangeB b1 b2)).filter (fun x => x.category = k)).length)))).map (fun g => (g.field, g.total))).map Prod.fst).Nodup :=
    ((hperm.map Prod.fst).nodup_iff).mpr hnodupKeys
  by_cases hex : ∃ x ∈ s.expenses, inRangeB b1 b2 x = true ∧ x.category = some c
  · obtain ⟨x, hx, hr, hcx⟩ := hex
    have hcne : c ≠ "" := by
      obtain ⟨c', hc', hne⟩ := hcat x hx hr
      rw [hcx] at hc'
      cases hc'
      exact hne
    have hkmem : (some c) ∈ (firstDedup ((s.expenses.filter (inRangeB b1 b2)).map (·.category))) := by
      rw [mem_firstDedup, List.mem_map]
      exact ⟨x, List.mem_filter.2 ⟨hx, hr⟩, hcx⟩
    have hmem : (c, (((s.expenses.filter (inRangeB b1 b2)).filter (fun x => x.category = some c)).map (·.amount)).sum)
        ∈ ((sortBy (fun a b => decide (b.total ≤ a.total)) ((firstDedup ((s.expenses.filter (inRangeB b1 b2)).map (·.category))).map (fun k => AggRow.mk (display k)
      ((((s.expenses.filter (inRangeB b1 b2)).filter (fun x => x.category = k)).map (·.amount)).sum)
      (((s.expenses.filter (inRangeB b1 b2)).filter (fun x => x.category = k)).length)))).map (fun g => (g.field, g.total))) := by
      rw [hperm.mem_iff, List.mem_map]
      refine ⟨(fun k => AggRow.mk (display k)
      ((((s.expenses.filter (inRangeB b1 b2)).filter (fun x => x.category = k)).map (·.amount)).sum)
      (((s.expenses.filter (inRangeB b1 b2)).filter (fun x => x.category = k)).length)) (some c), List.mem_map_of_mem _ hkmem, ?_⟩
      simp only [display, if_neg hcne]
    rw [lookupLast_eq_some_of_mem hnodupSorted hmem]
    rw [Option.getD_some, spend_fiber]
  · have hnone : lookupLast c ((sortBy (fun a b => decide (b.total ≤ a.total)) ((firstDedup ((s.expenses.filter (inRangeB b1 b2)).map (·.category))).map (fun k => AggRow.mk (display k)
      ((((s.expenses.filter (inRangeB b1 b2)).filter (fun x => x.category = k)).map (·.amount)).sum)
      (((s.expenses.filter (inRangeB b1 b2)).filter (fun x => x.category = k)).length)))).map (fun g => (g.field, g.total))) = none := by
      rw [lookupLast_eq_none]
      intro p hp
      rw [hperm.mem_iff, List.mem_map] at hp
      obtain ⟨g, hg, rfl⟩ := hp
      rw [List.mem_map] at hg
      obtain ⟨k, hk, rfl⟩ := hg
      obtain ⟨c', rfl, hne', x', hx', hr', hcx'⟩ := keys_shape b1 b2 s hcat k hk
      simp only [display, if_neg hne']
      intro hcc
      exact hex ⟨x', hx', hr', by rw [hcx', hcc]⟩
    rw [hnone]
    have hz : spendIn b1 b2 c s = 0 := by
      unfold spendIn
      have hnil : s.expenses.filter
          (fun x => decide (x.category = some c) && inRangeB b1 b2 x) = [] := by
        rw [List.filter_eq_nil_iff]
        intro a ha
        simp only [Bool.and_eq_true, decide_eq_true_eq, not_and]
        intro h1 h2
        exact hex ⟨a, ha, h2, h1⟩
      rw [hnil]
      rfl
    rw [hz]
    rfl

/-- C6 (amended): on stores whose in-month expenses all carry non-null,
non-empty category labels (and under the `budgets.category UNIQUE` schema
constraint), `get_budget_status` (for the current month, modelled by
explicit `nowYear`/`nowMonth`) returns, for every budgeted category, an
entry with the raw budget, the rounded spending of that category in the
month, remaining = budget − spent (rounded), and `over_budget` true
exactly when budget − spent is negative; for every category with spending
but no budget an entry with null budget, rounded spending, null remaining
and `over_budget` false; and every entry belongs to a budgeted or a
spending category (neither ⇒ absent).  The restriction is forced: without
it the claim is false of the code — a NULL-category and a literal
`"Uncategorized"` category alias to the same display key and collapse
last-writer-wins in `spent_map`, so a budgeted `"Uncategorized"` entry
reports only one aliased group's spending (see the C6 counterexample). -/
theorem budget_status_correct (nY nM : ℕ) (s : Store)
    (hnd : (s.budgets.map (·.category)).Nodup)
    (hcat : ∀ x ∈ s.expenses, inRangeB (iso_first_last_of_month nY nM).1 (iso_first_last_of_month nY nM).2 x = true →
      ∃ c, x.category = some c ∧ c ≠ "") :
    (∀ bg ∈ s.budgets,
      (StatusEntry.mk bg.category (some bg.amount)
        (round2 (spendIn (iso_first_last_of_month nY nM).1 (iso_first_last_of_month nY nM).2 bg.category s))
        (some (round2 (bg.amount - spendIn (iso_first_last_of_month nY nM).1 (iso_first_last_of_month nY nM).2 bg.category s)))
        (decide (bg.amount - spendIn (iso_first_last_of_month nY nM).1 (iso_first_last_of_month nY nM).2 bg.category s < 0)))
        ∈ get_budget_status nY nM s) ∧
    (∀ c : String,
      (∃ x ∈ s.expenses, inRangeB (iso_first_last_of_month nY nM).1 (iso_first_last_of_month nY nM).2 x = true ∧ x.category = some c) →
      (∀ bg ∈ s.budgets, bg.category ≠ c) →
      (StatusEntry.mk c none (round2 (spendIn (iso_first_last_of_month nY nM).1 (iso_first_last_of_month nY nM).2 c s)) none false)
        ∈ get_budget_status nY nM s) ∧
    (∀ en ∈ get_budget_status nY nM s,
      (∃ bg ∈ s.budgets, bg.category = en.category) ∨
      (∃ x ∈ s.expenses, inRangeB (iso_first_last_of_month nY nM).1 (iso_first_last_of_month nY nM).2 x = true ∧
        x.category = some en.category)) := by
  have _ := hnd
  refine ⟨?_, ?_, ?_⟩
  · intro bg hbg
    have hsp := spent_lookup (iso_first_last_of_month nY nM).1 (iso_first_last_of_month nY nM).2 s hcat bg.category
    simp only [get_budget_status, get_budgets]
    apply List.mem_append_left
    rw [List.mem_map]
    refine ⟨bg, hbg, ?_⟩
    rw [hsp]
  · intro c hex hnb
    have hcne : c ≠ "" := by
      obtain ⟨x, hx, hr, hcx⟩ := hex
      obtain ⟨c', hc', hne⟩ := hcat x hx hr
      rw [hcx] at hc'
      cases hc'
      exact hne
    have hkmem : (some c) ∈ firstDedup ((s.expenses.filter (inRangeB (iso_first_last_of_month nY nM).1 (iso_first_last_of_month nY nM).2)).map (·.category)) := by
      obtain ⟨x, hx, hr, hcx⟩ := hex
      rw [mem_firstDedup, List.mem_map]
      exact ⟨x, List.mem_filter.2 ⟨hx, hr⟩, hcx⟩
    simp only [get_budget_status, get_budgets]
    apply List.mem_append_right
    rw [List.mem_map]
    refine ⟨(fun k => AggRow.mk (display k)
      ((((s.expenses.filter (inRangeB (iso_first_last_of_month nY nM).1 (iso_first_last_of_month nY nM).2)).filter (fun x => x.category = k)).map (·.amount)).sum)
      (((s.expenses.filter (inRangeB (iso_first_last_of_month nY nM).1 (iso_first_last_of_month nY nM).2)).filter (fun x => x.category = k)).length)) (some c), ?_, ?_⟩
    · rw [List.mem_filter]
      constructor
      · rw [agg_category_eq, mem_sortBy]
        exact List.mem_map_of_mem _ hkmem
      · simp only [display, if_neg hcne]
        rw [Bool.not_eq_true', List.any_eq_false]
        intro bg hbg
        simpa using hnb bg hbg
    · simp only [display, if_neg hcne]
      rw [spend_fiber]
  · intro en hen
    simp only [get_budget_status, get_budgets] at hen
    rcases List.mem_append.1 hen with h | h
    · obtain ⟨bg, hbg, rfl⟩ := List.mem_map.1 h
      exact Or.inl ⟨bg, hbg, rfl⟩
    · obtain ⟨g, hg, rfl⟩ := List.mem_map.1 h
      have hg2 := (List.mem_filter.1 hg).1
      rw [agg_category_eq, mem_sortBy, List.mem_map] at hg2
      obtain ⟨k, hk, rfl⟩ := hg2
      obtain ⟨c', rfl, hne', x', hx', hr', hcx'⟩ :=
        keys_shape (iso_first_last_of_month nY nM).1 (iso_first_last_of_month nY nM).2 s hcat k hk
      refine Or.inr ⟨x', hx', hr', ?_⟩
      rw [hcx']
      simp [display, hne']

/-- Witness for C6: budget `Food = 300` with Food spending 100 and 250 in
November 2025.  The theorem instantiates, and in particular the status
list contains the entry `spent 350`, `remaining −50`, `over_budget
true`. -/
theorem budget_status_correct_witness :
    (foodStore.budgets.map (·.category)).Nodup ∧
    (∀ bg ∈ foodStore.budgets,
      (StatusEntry.mk bg.category (some bg.amount)
        (round2 (spendIn (iso_first_last_of_month 2025 11).1 (iso_first_last_of_month 2025 11).2 bg.category foodStore))
        (some (round2 (bg.amount - spendIn (iso_first_last_of_month 2025 11).1 (iso_first_last_of_month 2025 11).2 bg.category foodStore)))
        (decide (bg.amount - spendIn (iso_first_last_of_month 2025 11).1 (iso_first_last_of_month 2025 11).2 bg.category foodStore < 0)))
        ∈ get_budget_status 2025 11 foodStore) ∧
    (StatusEntry.mk "Food" (some 300) 350 (some (-50)) true
      ∈ get_budget_status 2025 11 foodStore) := by
  have hnd : (foodStore.budgets.map (·.category)).Nodup := by decide
  have hcat : ∀ x ∈ foodStore.expenses, inRangeB (iso_first_last_of_month 2025 11).1 (iso_first_last_of_month 2025 11).2 x = true →
      ∃ c, x.category = some c ∧ c ≠ "" := by
    intro x hx _
    have : x = foodRow1 ∨ x = foodRow2 := by
      simpa [foodStore] using hx
    rcases this with rfl | rfl
    · exact ⟨"Food", rfl, by decide⟩
    · exact ⟨"Food", rfl, by decide⟩
  have hmain := budget_status_correct 2025 11 foodStore hnd hcat
  have hb : iso_first_last_of_month 2025 11 = ("2025-11-01", "2025-11-30") := by decide
  have hspend : spendIn (iso_first_last_of_month 2025 11).1 (iso_first_last_of_month 2025 11).2 "Food" foodStore = 350 := by
    rw [hb]
    simp [spendIn, foodStore, foodRow1, foodRow2, inRangeB, strLe, charsLe]
    norm_num
  have hfood := hmain.1 ⟨"Food", 300, "monthly"⟩ (List.mem_cons_self _ _)
  rw [hspend] at hfood
  have hr1 : round2 350 = 350 := by norm_num [round2, roundHalfEven]
  have hr2 : round2 ((300 : ℚ) - 350) = -50 := by norm_num [round2, roundHalfEven]
  have hr3 : decide ((300 : ℚ) - 350 < 0) = true := by norm_num
  rw [hr1, hr2, hr3] at hfood
  exact ⟨hnd, hmain.1, hfood⟩

/-- Counterexample to C6 as stated (for every store state): in
`aliasStore` the month holds a NULL-category expense of 50 and a literal
`"Uncategorized"` expense of 70, with a budget `Uncategorized = 100`.
Both aggregation groups display as `"Uncategorized"` and collapse
last-writer-wins in the `spent_map` dict, so the budgeted entry reports
spent 50 — neither the 70 spent under the stored `"Uncategorized"` label
nor the 120 total displayed as `"Uncategorized"` — and `over_budget`
false, while no separate entry reports the other group's spending
against the budget. -/
theorem budget_status_alias_collapse :
    get_budget_status 2025 11 aliasStore
      = [⟨"Uncategorized", some 100, 50, some 50, false⟩] ∧
    spendIn (iso_first_last_of_month 2025 11).1 (iso_first_last_of_month 2025 11).2
      "Uncategorized" aliasStore = 70 ∧
    total_spent (iso_first_last_of_month 2025 11).1 (iso_first_last_of_month 2025 11).2
      aliasStore = 120 ∧
    (50 : ℚ) ≠ 70 ∧ (50 : ℚ) ≠ 120 := by
  have hb : iso_first_last_of_month 2025 11 = ("2025-11-01", "2025-11-30") := by
    decide
  have hle : decide ((70 : ℚ) ≤ 50) = false := by norm_num
  have hagg : aggregate_by_field "2025-11-01" "2025-11-30" "category" aliasStore
      = [⟨"Uncategorized", 70, 1⟩, ⟨"Uncategorized", 50, 1⟩] := by
    simp [aggregate_by_field, aliasStore, aliasRow1, aliasRow2, inRangeB, strLe,
      charsLe, sel, firstDedup, display, sortBy, insBy, hle]
  refine ⟨?_, ?_, ?_, by norm_num, by norm_num⟩
  · have hbud : get_budgets aliasStore = [⟨"Uncategorized", 100, "monthly"⟩] := rfl
    have hlk : lookupLast "Uncategorized" [("Uncategorized", 70), ("Uncategorized", 50)]
        = some 50 := rfl
    simp only [get_budget_status, hb, hagg, hbud]
    simp only [List.map_cons, List.map_nil, hlk, List.any_cons, List.any_nil]
    norm_num [round2, roundHalfEven, List.filter_cons, List.filter_nil]
  · rw [hb]
    simp [spendIn, aliasStore, aliasRow1, aliasRow2, inRangeB, strLe, charsLe]
  · rw [hb]
    simp [total_spent, aliasStore, aliasRow1, aliasRow2, inRangeB, strLe, charsLe]
    norm_num

end Tacanno
